import Mathlib

/-
Shallow embedding of the `icloud-photo-synchroniser` repository
(src/digest.rs, src/store.rs, src/main.rs) and proofs about it.

Conventions of the embedding:
* bytes are `Nat` values < 256, byte streams are `List Nat`;
* `SystemTime` is an `Int` counting nanoseconds since the UNIX epoch
  (negative = before the epoch), so `SystemTime::duration_since(UNIX_EPOCH)`
  fails exactly on negative values and `Duration::as_secs` is division
  by 10^9;
* Rust's `u64 as i64` / `i64 as u64` reinterpreting casts are modelled
  explicitly on `Nat` / `Int`;
* fallible operations return `Except String`, and whole-run steps return
  `RunResult`, which carries the state that the last successful durable
  operation left behind when a fatal error unwinds.
-/

set_option maxRecDepth 4000

deriving instance DecidableEq for Except

namespace PhotoSync

/-! ## SHA-256 (the `sha2::Sha256` hash used by src/digest.rs)

A byte-level implementation of FIPS 180-4 SHA-256.  32-bit words are `Nat`
values kept below `2^32` by explicit `% 4294967296` reductions. -/

/-- 32-bit rotate right. -/
def rotr32 (n x : Nat) : Nat :=
  ((x >>> n) ||| (x <<< (32 - n))) % 4294967296

/-- Big-endian byte decomposition: `k` bytes of `n`. -/
def beBytes (k n : Nat) : List Nat :=
  (List.range k).reverse.map fun i => (n >>> (8 * i)) % 256

/-- Combine big-endian bytes into a word. -/
def wordOfBytes (bs : List Nat) : Nat :=
  bs.foldl (fun a b => a * 256 + b) 0

/-- SHA-256 round constants (FIPS 180-4 section 4.2.2, in decimal). -/
def sha256K : List Nat :=
  [1116352408, 1899447441, 3049323471, 3921009573, 961987163, 1508970993,
   2453635748, 2870763221, 3624381080, 310598401, 607225278, 1426881987,
   1925078388, 2162078206, 2614888103, 3248222580, 3835390401, 4022224774,
   264347078, 604807628, 770255983, 1249150122, 1555081692, 1996064986,
   2554220882, 2821834349, 2952996808, 3210313671, 3336571891, 3584528711,
   113926993, 338241895, 666307205, 773529912, 1294757372, 1396182291,
   1695183700, 1986661051, 2177026350, 2456956037, 2730485921, 2820302411,
   3259730800, 3345764771, 3516065817, 3600352804, 4094571909, 275423344,
   430227734, 506948616, 659060556, 883997877, 958139571, 1322822218,
   1537002063, 1747873779, 1955562222, 2024104815, 2227730452, 2361852424,
   2428436474, 2756734187, 3204031479, 3329325298]

/-- SHA-256 initial hash value (FIPS 180-4 section 5.3.3, in decimal). -/
def sha256H0 : List Nat :=
  [1779033703, 3144134277, 1013904242, 2773480762, 1359893119, 2600822924,
   528734635, 1541459225]

def smallSigma0 (x : Nat) : Nat := rotr32 7 x ^^^ rotr32 18 x ^^^ (x >>> 3)

def smallSigma1 (x : Nat) : Nat := rotr32 17 x ^^^ rotr32 19 x ^^^ (x >>> 10)

def bigSigma0 (x : Nat) : Nat := rotr32 2 x ^^^ rotr32 13 x ^^^ rotr32 22 x

def bigSigma1 (x : Nat) : Nat := rotr32 6 x ^^^ rotr32 11 x ^^^ rotr32 25 x

/-- Message padding: append `0x80`, zeros until the length is 56 mod 64,
then the bit length as 8 big-endian bytes.  The zero count is
`(56 - (L + 1)) mod 64` computed as `(119 - L mod 64) mod 64` so that the
`Nat` subtraction never truncates (`L mod 64 ≤ 63 < 119`). -/
def sha256Pad (msg : List Nat) : List Nat :=
  let L := msg.length
  let z := (119 - L % 64) % 64
  msg ++ [0x80] ++ List.replicate z 0 ++ beBytes 8 (8 * L)

/-- Split a byte list into 64-byte blocks (fuelled; the list is always
a multiple of 64 bytes after padding). -/
def toBlocksAux : Nat → List Nat → List (List Nat)
  | _, [] => []
  | 0, _ :: _ => []
  | fuel + 1, b :: bs => (b :: bs).take 64 :: toBlocksAux fuel ((b :: bs).drop 64)

def toBlocks (l : List Nat) : List (List Nat) :=
  toBlocksAux l.length l

/-- Extend the 16-word schedule by `n` further words. -/
def scheduleExtend : List Nat → Nat → List Nat
  | w, 0 => w
  | w, n + 1 =>
    let t := w.length
    let next :=
      (smallSigma1 (w.getD (t - 2) 0) + w.getD (t - 7) 0 +
        smallSigma0 (w.getD (t - 15) 0) + w.getD (t - 16) 0) % 4294967296
    scheduleExtend (w ++ [next]) n

/-- One round of the compression function on the working variables. -/
def compressRound (s : Nat × Nat × Nat × Nat × Nat × Nat × Nat × Nat) (kw : Nat × Nat) :
    Nat × Nat × Nat × Nat × Nat × Nat × Nat × Nat :=
  let (a, b, c, d, e, f, g, h) := s
  let ch := (e &&& f) ^^^ ((e ^^^ 0xffffffff) &&& g)
  let maj := (a &&& b) ^^^ (a &&& c) ^^^ (b &&& c)
  let t1 := (h + bigSigma1 e + ch + kw.1 + kw.2) % 4294967296
  let t2 := (bigSigma0 a + maj) % 4294967296
  ((t1 + t2) % 4294967296, a, b, c, (d + t1) % 4294967296, e, f, g)

/-- Compress one 64-byte block into the running 8-word state. -/
def compressBlock (hs : List Nat) (block : List Nat) : List Nat :=
  let w0 := (List.range 16).map fun i => wordOfBytes ((block.drop (4 * i)).take 4)
  let w := scheduleExtend w0 48
  let init := (hs.getD 0 0, hs.getD 1 0, hs.getD 2 0, hs.getD 3 0,
               hs.getD 4 0, hs.getD 5 0, hs.getD 6 0, hs.getD 7 0)
  let (a, b, c, d, e, f, g, h) := (sha256K.zip w).foldl compressRound init
  [(hs.getD 0 0 + a) % 4294967296, (hs.getD 1 0 + b) % 4294967296,
   (hs.getD 2 0 + c) % 4294967296, (hs.getD 3 0 + d) % 4294967296,
   (hs.getD 4 0 + e) % 4294967296, (hs.getD 5 0 + f) % 4294967296,
   (hs.getD 6 0 + g) % 4294967296, (hs.getD 7 0 + h) % 4294967296]

/-- SHA-256 of a byte stream, as the 32-byte digest. -/
def sha256Hash (msg : List Nat) : List Nat :=
  (((toBlocks (sha256Pad msg)).foldl compressBlock sha256H0).map (beBytes 4)).flatten

/-! ## Digest Engine (src/digest.rs)

`DigestWriter<W>` tees every written byte into the wrapped writer and into a
running `Sha256`.  The wrapped writer is modelled extensionally as the list of
bytes it has accepted so far, and the incremental `Sha256` state as the
message absorbed so far (`update` = append, `finalize` = `sha256Hash`). -/

structure DigestWriter where
  inner : List Nat
  sha256 : List Nat
deriving DecidableEq

/-- `DigestWriter::new(inner)`: fresh hash state over an existing writer. -/
def DigestWriter.new (w : List Nat) : DigestWriter := ⟨w, []⟩

/-- One call of `Write::write` on the tee: the inner writer accepts
`accepted` bytes of `buf`; the hash is updated with exactly the accepted
prefix (and only when `accepted > 0`, per the source's guard). -/
def DigestWriter.write (d : DigestWriter) (buf : List Nat) (accepted : Nat) : DigestWriter :=
  { inner := d.inner ++ buf.take accepted
    sha256 := if 0 < accepted then d.sha256 ++ buf.take accepted else d.sha256 }

/-- `DigestWriter::finalise`: flush (a no-op on the model) and produce the
accumulated digest. -/
def DigestWriter.finalise (d : DigestWriter) : List Nat :=
  sha256Hash d.sha256

/-- The retrying write loop that `io::copy` performs against the tee:
`accepts buf` is how many bytes the destination accepts on one call; a
zero-byte write is an error (`none`), mirroring `ErrorKind::WriteZero`. -/
def write_all (accepts : List Nat → Nat) : Nat → DigestWriter → List Nat → Option DigestWriter
  | _, d, [] => some d
  | 0, _, _ :: _ => none
  | fuel + 1, d, b :: bs =>
    let k := accepts (b :: bs)
    if k = 0 then none
    else write_all accepts fuel (d.write (b :: bs) k) ((b :: bs).drop k)

/-- `digest(path)` from src/digest.rs: hash the file's bytes directly. -/
def digest (contents : List Nat) : List Nat :=
  sha256Hash contents

/-! ## Metadata store (src/store.rs)

The SQLite database is modelled by its two tables, each a list of rows
`(path, record)`; `INSERT` appends a row after SQLite's primary-key check,
and the `all_target_digests` view is the `UNION ALL` of the two digest
columns. -/

/-- Rust's `u64 as i64` reinterpreting cast (SQLite stores signed 64-bit). -/
def u64_as_i64 (n : Nat) : Int :=
  if n < 9223372036854775808 then (n : Int) else (n : Int) - 18446744073709551616

/-- Rust's `i64 as u64`-style reinterpretation, as used when a stored
`INTEGER` column is read back into a `u64` field. -/
def i64_as_u64 (i : Int) : Nat :=
  (i % 18446744073709551616).toNat

/-- src/store.rs `system_time_as_i64`: seconds since the UNIX epoch,
truncated; times before the epoch are an error. -/
def system_time_as_i64 (t : Int) : Except String Int :=
  if t < 0 then .error "system time before UNIX_EPOCH"
  else .ok (t / 1000000000)

/-- src/store.rs `i64_as_system_time`: stored seconds back to a
`SystemTime` (nanoseconds in the model). -/
def i64_as_system_time (t : Int) : Int :=
  t * 1000000000

/-- One row of `old_target_files` / `source_files`: `mtime` and `size` as the
stored SQLite `INTEGER`s, `digest` as the stored 32-byte blob. -/
structure FileRecord where
  mtime : Int
  size : Int
  digest : List Nat
deriving DecidableEq

/-- The durable state behind `PhotoSyncStore`: the two tables created by
`ensure_schema`. -/
structure StoreState where
  old_target_files : List (String × FileRecord)
  source_files : List (String × FileRecord)
deriving DecidableEq

/-- `SELECT ... WHERE path=?1 LIMIT 1`: first row with the given key. -/
def lookupRecord : List (String × FileRecord) → String → Option FileRecord
  | [], _ => none
  | (q, r) :: rest, p => if q = p then some r else lookupRecord rest p

/-- SQLite's `PRIMARY KEY (path)` uniqueness check for an `INSERT`. -/
def hasPath (rows : List (String × FileRecord)) (p : String) : Bool :=
  rows.any fun e => e.1 == p

/-- src/store.rs `WasTransferredFromSourceResult` (the tri-state result of
`was_transferred_from_source`): note its `NewMetadata` variant carries only
the previous `last_modified` and `size`. -/
inductive WasTransferredFromSourceResult where
  | New
  | Transferred
  | NewMetadata (last_modified : Int) (size : Nat)
deriving DecidableEq

/-- src/store.rs `exists_in_old_target`: a boolean existence query for a row
matching `path`, `mtime` *and* `size` exactly. -/
def exists_in_old_target (st : StoreState) (p : String) (last_modified : Int) (size : Nat) :
    Except String Bool :=
  match system_time_as_i64 last_modified with
  | .error e => .error e
  | .ok m =>
    .ok (st.old_target_files.any fun e =>
      e.1 == p && e.2.mtime == m && e.2.size == u64_as_i64 size)

/-- src/store.rs `mark_exists_in_old_target`: a plain `INSERT` into
`old_target_files` (no `OR REPLACE`), so a duplicate path violates the
primary key. -/
def mark_exists_in_old_target (st : StoreState) (p : String) (last_modified : Int)
    (size : Nat) (digest : List Nat) : Except String StoreState :=
  match system_time_as_i64 last_modified with
  | .error e => .error e
  | .ok m =>
    if hasPath st.old_target_files p then
      .error "UNIQUE constraint failed: old_target_files.path"
    else
      .ok { st with
            old_target_files := st.old_target_files ++ [(p, ⟨m, u64_as_i64 size, digest⟩)] }

/-- src/store.rs `exists_in_target`: digest existence over the
`all_target_digests` view, the `UNION ALL` of both tables. -/
def exists_in_target (st : StoreState) (digest : List Nat) : Bool :=
  (st.old_target_files ++ st.source_files).any fun e => e.2.digest == digest

/-- src/store.rs `was_transferred_from_source`: look the path up in
`source_files`; exact (second-truncated mtime, size) match is
`Transferred`, a mismatch returns the stored metadata. -/
def was_transferred_from_source (st : StoreState) (p : String) (last_modified : Int)
    (size : Nat) : Except String WasTransferredFromSourceResult :=
  match system_time_as_i64 last_modified with
  | .error e => .error e
  | .ok m =>
    match lookupRecord st.source_files p with
    | none => .ok .New
    | some r =>
      if r.mtime = m ∧ r.size = u64_as_i64 size then .ok .Transferred
      else .ok (.NewMetadata (i64_as_system_time r.mtime) (i64_as_u64 r.size))

/-- src/store.rs `mark_transferred_from_source`: a plain `INSERT` into
`source_files`. -/
def mark_transferred_from_source (st : StoreState) (p : String) (digest : List Nat)
    (last_modified : Int) (size : Nat) : Except String StoreState :=
  match system_time_as_i64 last_modified with
  | .error e => .error e
  | .ok m =>
    if hasPath st.source_files p then
      .error "UNIQUE constraint failed: source_files.path"
    else
      .ok { st with
            source_files := st.source_files ++ [(p, ⟨m, u64_as_i64 size, digest⟩)] }

/-! ## Run results

A fatal error (`?` unwinding out of a phase) terminates the run but leaves
the durable state exactly as the last successful operation left it; the
state is therefore carried on both constructors. -/

inductive RunResult (σ : Type) (α : Type) where
  | ok (s : σ) (v : α)
  | fatal (s : σ) (msg : String)
deriving DecidableEq

/-! ## Phase 1: index the legacy archive (src/main.rs `ensure_old_out_dir_properly_indexed`) -/

/-- The tri-state legacy lookup result that the phase-1 `match` in
src/main.rs destructures: `Unknown` / `Current` / `Stale` with the
previously stored metadata and digest. -/
inductive LegacyLookupResult where
  | Unknown
  | Current
  | Stale (prev_mtime : Int) (prev_size : Nat) (prev_digest : List Nat)
deriving DecidableEq

/-- Modelled from the spec: the tri-state `legacy_lookup(path, mtime, size)`
operation is missing from src/store.rs (whose `exists_in_old_target` returns
only a boolean), yet src/main.rs's phase 1 matches its result against the
three variants, so it is modelled from the spec's table: `Unknown` when no
record exists for the path, `Current` on an exact (truncated mtime, size)
match, `Stale(prev_mtime, prev_size, prev_digest)` otherwise. -/
def legacy_lookup (st : StoreState) (p : String) (last_modified : Int) (size : Nat) :
    Except String LegacyLookupResult :=
  match system_time_as_i64 last_modified with
  | .error e => .error e
  | .ok m =>
    match lookupRecord st.old_target_files p with
    | none => .ok .Unknown
    | some r =>
      if r.mtime = m ∧ r.size = u64_as_i64 size then .ok .Current
      else .ok (.Stale (i64_as_system_time r.mtime) (i64_as_u64 r.size) r.digest)

/-- The phase-1 per-path body of `ensure_old_out_dir_properly_indexed`
(src/main.rs lines 104-139), for a legacy file at relative path `p` whose
current bytes, modification time and size are given.  Note the source's
`NewMetadata` match arm binds `last_modified` and `size` from the *record's*
payload, shadowing the file's current metadata, so the re-record in the
stale branch uses the previous metadata. -/
def ensure_old_out_dir_properly_indexed_step (st : StoreState) (p : String)
    (contents : List Nat) (last_modified : Int) (size : Nat) : RunResult StoreState Unit :=
  match legacy_lookup st p last_modified size with
  | .error e => .fatal st e
  | .ok .Unknown =>
    match mark_exists_in_old_target st p last_modified size (digest contents) with
    | .error e => .fatal st e
    | .ok st2 => .ok st2 ()
  | .ok .Current => .ok st ()
  | .ok (.Stale prev_mtime prev_size old_digest) =>
    if old_digest = digest contents then
      match mark_exists_in_old_target st p prev_mtime prev_size (digest contents) with
      | .error e => .fatal st e
      | .ok st2 => .ok st2 ()
    else
      .fatal st ("unexpected rewrite of file " ++ p ++ ", digest changed")

/-! ## Phase 3: transfer candidates (src/main.rs `transfer_new_files`)

The destination tree is a list of `(relative path, contents)` pairs.  The
staging file is private per candidate and only observable through the
publish, so it is not part of the state; per src/digest.rs (and the
round-trip theorem below) the digest of a fully staged copy is
`digest contents`. -/

structure Fs where
  files : List (String × List Nat)
deriving DecidableEq

def fsHasPath (fs : Fs) (p : String) : Bool :=
  fs.files.any fun e => e.1 == p

/-- Modelled from the spec: the staging/publish primitive
(`NamedTempFile::persist_noclobber`) is an external collaborator specified
at its interface — atomically move the staged contents to the destination
path, failing rather than overwriting when a file already exists there. -/
def persist_noclobber (fs : Fs) (p : String) (contents : List Nat) : Except String Fs :=
  if fsHasPath fs p then .error ("file already exists: " ++ p)
  else .ok ⟨fs.files ++ [(p, contents)]⟩

/-- How reading one source file goes in phase 3: the open fails, the
byte copy fails partway, or the whole file is read. -/
inductive SourceRead where
  | openFails
  | copyFails
  | okRead
deriving DecidableEq

/-- One phase-3 candidate: its relative path, its bytes, how its read goes,
and the metadata `fs::metadata` reports (`SystemTime` nanoseconds, `u64`
size). -/
structure Candidate where
  path : String
  contents : List Nat
  readOutcome : SourceRead
  last_modified : Int
  size : Nat
deriving DecidableEq

/-- src/main.rs `FileOutcome`. -/
inductive FileOutcome where
  | Success
  | FailedToOpen (p : String)
  | FailedToCopy (p : String)
deriving DecidableEq

/-- The phase-3 per-candidate body (src/main.rs lines 211-259): open, copy
through the tee into staging, dedup check over both corpora, no-clobber
publish, then record the transfer.  Open and copy failures yield an
outcome and leave every piece of state untouched; `?` failures of the
publish or the record are fatal. -/
def transfer_one (st : StoreState) (fs : Fs) (c : Candidate) :
    RunResult (StoreState × Fs) FileOutcome :=
  match c.readOutcome with
  | .openFails => .ok (st, fs) (.FailedToOpen c.path)
  | .copyFails => .ok (st, fs) (.FailedToCopy c.path)
  | .okRead =>
    match (if exists_in_target st (digest c.contents) then Except.ok fs
           else persist_noclobber fs c.path c.contents) with
    | .error e => .fatal (st, fs) e
    | .ok fs2 =>
      match mark_transferred_from_source st c.path (digest c.contents)
          c.last_modified c.size with
      | .error e => .fatal (st, fs2) e
      | .ok st2 => .ok (st2, fs2) .Success

/-- src/main.rs `transfer_new_files` over the candidate list, collecting the
per-file outcomes; an `Err` from any candidate fails the whole phase
(`collect::<Result<_>>` followed by `?`).  This is the fully serial
schedule of the rayon worker pool — one candidate's body runs to
completion before the next starts; the interleaved executions the pool
also admits are modelled by `runSchedule` below. -/
def transfer_new_files (st : StoreState) (fs : Fs) :
    List Candidate → RunResult (StoreState × Fs) (List FileOutcome)
  | [] => .ok (st, fs) []
  | c :: cs =>
    match transfer_one st fs c with
    | .fatal s e => .fatal s e
    | .ok (st2, fs2) o =>
      match transfer_new_files st2 fs2 cs with
      | .fatal s e => .fatal s e
      | .ok s os => .ok s (o :: os)

/-! ## Interleaved execution of phase 3

src/main.rs runs the candidates through rayon's `into_par_iter`: each
candidate's body is one task, every store query/write is serialized by the
store's mutex (and each publish by the filesystem), but nothing makes the
check-then-act sequence `exists_in_target` → `persist_noclobber` →
`mark_transferred_from_source` transactional (spec §5).  The interleaved
model below therefore treats each of those calls as one atomic step of a
worker and lets an explicit schedule choose which worker steps next. -/

/-- Program counter of one phase-3 worker: where it is inside the
per-candidate body of `transfer_new_files`. -/
inductive WorkerPc where
  | toRead
  | toCheck
  | toPublish
  | toMark
  | done (o : FileOutcome)
deriving DecidableEq

/-- One rayon task: its candidate and its progress. -/
structure Worker where
  cand : Candidate
  pc : WorkerPc
deriving DecidableEq

/-- One atomic action of a worker against the shared state, following the
body of src/main.rs `transfer_new_files` step by step: read (open + copy +
digest, private to the worker), the digest-existence check, the no-clobber
publish (skipped when the check answered true), and the transfer record.
A worker that is `done` does nothing. -/
def workerStep (st : StoreState) (fs : Fs) (w : Worker) :
    RunResult (StoreState × Fs) Worker :=
  match w.pc with
  | .toRead =>
    match w.cand.readOutcome with
    | .openFails => .ok (st, fs) ⟨w.cand, .done (.FailedToOpen w.cand.path)⟩
    | .copyFails => .ok (st, fs) ⟨w.cand, .done (.FailedToCopy w.cand.path)⟩
    | .okRead => .ok (st, fs) ⟨w.cand, .toCheck⟩
  | .toCheck =>
    if exists_in_target st (digest w.cand.contents) then .ok (st, fs) ⟨w.cand, .toMark⟩
    else .ok (st, fs) ⟨w.cand, .toPublish⟩
  | .toPublish =>
    match persist_noclobber fs w.cand.path w.cand.contents with
    | .error e => .fatal (st, fs) e
    | .ok fs2 => .ok (st, fs2) ⟨w.cand, .toMark⟩
  | .toMark =>
    match mark_transferred_from_source st w.cand.path (digest w.cand.contents)
        w.cand.last_modified w.cand.size with
    | .error e => .fatal (st, fs) e
    | .ok st2 => .ok (st2, fs) ⟨w.cand, .done .Success⟩
  | .done _ => .ok (st, fs) w

/-- Interleaved execution of two phase-3 workers under an explicit schedule:
`false` steps the first worker, `true` the second.  A fatal step aborts the
run carrying the state the last successful operation left. -/
def runSchedule : StoreState → Fs → Worker → Worker → List Bool →
    RunResult (StoreState × Fs) (Worker × Worker)
  | st, fs, w1, w2, [] => .ok (st, fs) (w1, w2)
  | st, fs, w1, w2, false :: sched =>
    match workerStep st fs w1 with
    | .fatal s e => .fatal s e
    | .ok (st2, fs2) w1' => runSchedule st2 fs2 w1' w2 sched
  | st, fs, w1, w2, true :: sched =>
    match workerStep st fs w2 with
    | .fatal s e => .fatal s e
    | .ok (st2, fs2) w2' => runSchedule st2 fs2 w1 w2' sched

/-! ## Helper lemmas about the store operations -/

theorem system_time_as_i64_ok {t : Int} (ht : 0 ≤ t) :
    system_time_as_i64 t = .ok (t / 1000000000) := by
  simp [system_time_as_i64, not_lt.mpr ht]

theorem hasPath_append (rows : List (String × FileRecord)) (q : String) (r : FileRecord)
    (p : String) : hasPath (rows ++ [(q, r)]) p = (hasPath rows p || q == p) := by
  simp [hasPath, List.any_append]

theorem lookupRecord_of_hasPath_false {rows : List (String × FileRecord)} {p : String}
    (h : hasPath rows p = false) : lookupRecord rows p = none := by
  induction rows with
  | nil => rfl
  | cons e rest ih =>
    obtain ⟨q, r⟩ := e
    rw [hasPath, List.any_cons, Bool.or_eq_false_iff] at h
    have hq : ¬(q = p) := by simpa using h.1
    rw [lookupRecord, if_neg hq]
    exact ih h.2

theorem lookupRecord_append_self {rows : List (String × FileRecord)} {p : String}
    (r : FileRecord) (h : hasPath rows p = false) :
    lookupRecord (rows ++ [(p, r)]) p = some r := by
  induction rows with
  | nil => simp [lookupRecord]
  | cons e rest ih =>
    obtain ⟨q, r'⟩ := e
    rw [hasPath, List.any_cons, Bool.or_eq_false_iff] at h
    have hq : ¬(q = p) := by simpa using h.1
    rw [List.cons_append, lookupRecord, if_neg hq]
    exact ih h.2

theorem mark_transferred_ok_elim {st st' : StoreState} {p : String} {d : List Nat}
    {t : Int} {s : Nat} (h : mark_transferred_from_source st p d t s = .ok st') :
    0 ≤ t ∧ hasPath st.source_files p = false ∧
      st' = { st with
              source_files := st.source_files ++ [(p, ⟨t / 1000000000, u64_as_i64 s, d⟩)] } := by
  unfold mark_transferred_from_source system_time_as_i64 at h
  by_cases ht : t < 0
  · rw [if_pos ht] at h
    exact absurd h (by simp)
  · rw [if_neg ht] at h
    cases hp : hasPath st.source_files p <;> rw [hp] at h
    · simp only [if_neg Bool.false_ne_true] at h
      exact ⟨not_lt.mp ht, rfl, (Except.ok.injEq _ _ ▸ h).symm⟩
    · simp at h

theorem mark_exists_ok_elim {st st' : StoreState} {p : String} {d : List Nat}
    {t : Int} {s : Nat} (h : mark_exists_in_old_target st p t s d = .ok st') :
    0 ≤ t ∧ hasPath st.old_target_files p = false ∧
      st' = { st with
              old_target_files :=
                st.old_target_files ++ [(p, ⟨t / 1000000000, u64_as_i64 s, d⟩)] } := by
  unfold mark_exists_in_old_target system_time_as_i64 at h
  by_cases ht : t < 0
  · rw [if_pos ht] at h
    exact absurd h (by simp)
  · rw [if_neg ht] at h
    cases hp : hasPath st.old_target_files p <;> rw [hp] at h
    · simp only [if_neg Bool.false_ne_true] at h
      exact ⟨not_lt.mp ht, rfl, (Except.ok.injEq _ _ ▸ h).symm⟩
    · simp at h

theorem was_transferred_of_hasPath_false {st : StoreState} {p : String} {t : Int} {s : Nat}
    (h : hasPath st.source_files p = false) (ht : 0 ≤ t) :
    was_transferred_from_source st p t s = .ok .New := by
  unfold was_transferred_from_source
  rw [system_time_as_i64_ok ht, lookupRecord_of_hasPath_false h]

theorem exists_in_target_after_mark {st st' : StoreState} {p : String} {d : List Nat}
    {t : Int} {s : Nat} (h : mark_transferred_from_source st p d t s = .ok st') :
    exists_in_target st' d = true := by
  obtain ⟨-, -, rfl⟩ := mark_transferred_ok_elim h
  simp [exists_in_target, List.any_append]

theorem exists_in_target_mono_mark {st st' : StoreState} {p : String} {d d' : List Nat}
    {t : Int} {s : Nat} (h : mark_transferred_from_source st p d t s = .ok st')
    (hd : exists_in_target st d' = true) : exists_in_target st' d' = true := by
  obtain ⟨-, -, rfl⟩ := mark_transferred_ok_elim h
  simp only [exists_in_target, List.any_append, Bool.or_eq_true] at hd ⊢
  tauto

theorem hasPath_source_after_mark {st st' : StoreState} {p : String} {d : List Nat}
    {t : Int} {s : Nat} (h : mark_transferred_from_source st p d t s = .ok st')
    (q : String) :
    hasPath st'.source_files q = (hasPath st.source_files q || p == q) := by
  obtain ⟨-, -, rfl⟩ := mark_transferred_ok_elim h
  exact hasPath_append _ _ _ _

theorem mark_transferred_ok_intro {st : StoreState} {p : String} {d : List Nat}
    {t : Int} {s : Nat} (hp : hasPath st.source_files p = false) (ht : 0 ≤ t) :
    mark_transferred_from_source st p d t s =
      .ok { st with
            source_files := st.source_files ++ [(p, ⟨t / 1000000000, u64_as_i64 s, d⟩)] } := by
  unfold mark_transferred_from_source
  rw [system_time_as_i64_ok ht, hp]
  simp

theorem persist_noclobber_ok_intro {fs : Fs} {p : String} {contents : List Nat}
    (hp : fsHasPath fs p = false) :
    persist_noclobber fs p contents = .ok ⟨fs.files ++ [(p, contents)]⟩ := by
  unfold persist_noclobber
  rw [hp]
  simp

theorem fsHasPath_append (files : List (String × List Nat)) (q : String)
    (contents : List Nat) (p : String) :
    fsHasPath ⟨files ++ [(q, contents)]⟩ p = (fsHasPath ⟨files⟩ p || q == p) := by
  simp [fsHasPath, List.any_append]

/-! ## Helper lemmas about phase 3 -/

theorem transfer_one_openFails {st : StoreState} {fs : Fs} {c : Candidate}
    (h : c.readOutcome = .openFails) :
    transfer_one st fs c = .ok (st, fs) (.FailedToOpen c.path) := by
  unfold transfer_one
  rw [h]

theorem transfer_one_copyFails {st : StoreState} {fs : Fs} {c : Candidate}
    (h : c.readOutcome = .copyFails) :
    transfer_one st fs c = .ok (st, fs) (.FailedToCopy c.path) := by
  unfold transfer_one
  rw [h]

theorem transfer_one_okRead_dup {st : StoreState} {fs : Fs} {c : Candidate}
    (h : c.readOutcome = .okRead)
    (hd : exists_in_target st (digest c.contents) = true) :
    transfer_one st fs c =
      match mark_transferred_from_source st c.path (digest c.contents)
          c.last_modified c.size with
      | .error e => .fatal (st, fs) e
      | .ok st2 => .ok (st2, fs) .Success := by
  unfold transfer_one
  rw [h]
  simp [hd]

theorem transfer_one_okRead_publish {st : StoreState} {fs : Fs} {c : Candidate}
    (h : c.readOutcome = .okRead)
    (hd : exists_in_target st (digest c.contents) = false)
    (hp : fsHasPath fs c.path = false) :
    transfer_one st fs c =
      match mark_transferred_from_source st c.path (digest c.contents)
          c.last_modified c.size with
      | .error e => .fatal (st, ⟨fs.files ++ [(c.path, c.contents)]⟩) e
      | .ok st2 => .ok (st2, ⟨fs.files ++ [(c.path, c.contents)]⟩) .Success := by
  unfold transfer_one
  rw [h]
  simp [hd, persist_noclobber, hp]

theorem transfer_one_okRead_clobber {st : StoreState} {fs : Fs} {c : Candidate}
    (h : c.readOutcome = .okRead)
    (hd : exists_in_target st (digest c.contents) = false)
    (hp : fsHasPath fs c.path = true) :
    transfer_one st fs c = .fatal (st, fs) ("file already exists: " ++ c.path) := by
  unfold transfer_one
  rw [h]
  simp [hd, persist_noclobber, hp]

/-- Full inversion of a successful `transfer_one`. -/
theorem transfer_one_ok_elim {st st2 : StoreState} {fs fs2 : Fs} {c : Candidate}
    {o : FileOutcome} (h : transfer_one st fs c = .ok (st2, fs2) o) :
    (c.readOutcome = .openFails ∧ st2 = st ∧ fs2 = fs ∧ o = .FailedToOpen c.path) ∨
    (c.readOutcome = .copyFails ∧ st2 = st ∧ fs2 = fs ∧ o = .FailedToCopy c.path) ∨
    (c.readOutcome = .okRead ∧ o = .Success ∧
      mark_transferred_from_source st c.path (digest c.contents)
        c.last_modified c.size = .ok st2 ∧
      (fs2 = fs ∨ fs2 = ⟨fs.files ++ [(c.path, c.contents)]⟩)) := by
  cases hr : c.readOutcome
  case openFails =>
    rw [transfer_one_openFails hr] at h
    left
    simp only [RunResult.ok.injEq, Prod.mk.injEq] at h
    exact ⟨rfl, h.1.1.symm, h.1.2.symm, h.2.symm⟩
  case copyFails =>
    rw [transfer_one_copyFails hr] at h
    right; left
    simp only [RunResult.ok.injEq, Prod.mk.injEq] at h
    exact ⟨rfl, h.1.1.symm, h.1.2.symm, h.2.symm⟩
  case okRead =>
    right; right
    cases hd : exists_in_target st (digest c.contents)
    · cases hp : fsHasPath fs c.path
      · rw [transfer_one_okRead_publish hr hd hp] at h
        cases hm : mark_transferred_from_source st c.path (digest c.contents)
            c.last_modified c.size <;> rw [hm] at h
        · simp at h
        · simp only [RunResult.ok.injEq, Prod.mk.injEq] at h
          exact ⟨rfl, h.2.symm, by rw [h.1.1], Or.inr h.1.2.symm⟩
      · rw [transfer_one_okRead_clobber hr hd hp] at h
        simp at h
    · rw [transfer_one_okRead_dup hr hd] at h
      cases hm : mark_transferred_from_source st c.path (digest c.contents)
          c.last_modified c.size <;> rw [hm] at h
      · simp at h
      · simp only [RunResult.ok.injEq, Prod.mk.injEq] at h
        exact ⟨rfl, h.2.symm, by rw [h.1.1], Or.inl h.1.2.symm⟩

theorem transfer_one_ok_src_mono {st st2 : StoreState} {fs fs2 : Fs} {c : Candidate}
    {o : FileOutcome} (h : transfer_one st fs c = .ok (st2, fs2) o) {q : String}
    (hq : hasPath st.source_files q = true) : hasPath st2.source_files q = true := by
  rcases transfer_one_ok_elim h with ⟨-, rfl, -, -⟩ | ⟨-, rfl, -, -⟩ | ⟨-, -, hm, -⟩
  · exact hq
  · exact hq
  · rw [hasPath_source_after_mark hm, hq, Bool.true_or]

theorem transfer_one_ok_digest_mono {st st2 : StoreState} {fs fs2 : Fs} {c : Candidate}
    {o : FileOutcome} (h : transfer_one st fs c = .ok (st2, fs2) o) {d : List Nat}
    (hd : exists_in_target st d = true) : exists_in_target st2 d = true := by
  rcases transfer_one_ok_elim h with ⟨-, rfl, -, -⟩ | ⟨-, rfl, -, -⟩ | ⟨-, -, hm, -⟩
  · exact hd
  · exact hd
  · exact exists_in_target_mono_mark hm hd

theorem transfer_one_ok_src_sub {st st2 : StoreState} {fs fs2 : Fs} {c : Candidate}
    {o : FileOutcome} (h : transfer_one st fs c = .ok (st2, fs2) o) {q : String}
    (hq : hasPath st2.source_files q = true) :
    hasPath st.source_files q = true ∨ (q = c.path ∧ c.readOutcome = .okRead) := by
  rcases transfer_one_ok_elim h with ⟨-, rfl, -, -⟩ | ⟨-, rfl, -, -⟩ | ⟨hr, -, hm, -⟩
  · exact Or.inl hq
  · exact Or.inl hq
  · rw [hasPath_source_after_mark hm, Bool.or_eq_true] at hq
    rcases hq with hq | hq
    · exact Or.inl hq
    · exact Or.inr ⟨(beq_iff_eq.mp hq).symm, hr⟩

theorem transfer_one_ok_fs_sub {st st2 : StoreState} {fs fs2 : Fs} {c : Candidate}
    {o : FileOutcome} (h : transfer_one st fs c = .ok (st2, fs2) o) {q : String}
    (hq : fsHasPath fs2 q = true) : fsHasPath fs q = true ∨ q = c.path := by
  rcases transfer_one_ok_elim h with ⟨-, -, rfl, -⟩ | ⟨-, -, rfl, -⟩ | ⟨-, -, -, hf | hf⟩
  · exact Or.inl hq
  · exact Or.inl hq
  · exact Or.inl (hf ▸ hq)
  · subst hf
    rw [fsHasPath, List.any_append, Bool.or_eq_true] at hq
    rcases hq with hq | hq
    · exact Or.inl hq
    · simp only [List.any_cons, List.any_nil, Bool.or_false] at hq
      exact Or.inr (beq_iff_eq.mp hq).symm

/-- A successful `okRead` candidate records its path, and its digest is in
the target afterwards. -/
theorem transfer_one_okRead_ok {st st2 : StoreState} {fs fs2 : Fs} {c : Candidate}
    {o : FileOutcome} (hr : c.readOutcome = .okRead)
    (h : transfer_one st fs c = .ok (st2, fs2) o) :
    hasPath st2.source_files c.path = true ∧
      exists_in_target st2 (digest c.contents) = true ∧ o = .Success := by
  rcases transfer_one_ok_elim h with ⟨hr', -⟩ | ⟨hr', -⟩ | ⟨-, ho, hm, -⟩
  · rw [hr] at hr'; cases hr'
  · rw [hr] at hr'; cases hr'
  · refine ⟨?_, exists_in_target_after_mark hm, ho⟩
    rw [hasPath_source_after_mark hm]
    simp

/-- A duplicate (digest already present) `okRead` candidate does not touch
the destination tree. -/
theorem transfer_one_okRead_dup_fs {st st2 : StoreState} {fs fs2 : Fs} {c : Candidate}
    {o : FileOutcome} (hr : c.readOutcome = .okRead)
    (hd : exists_in_target st (digest c.contents) = true)
    (h : transfer_one st fs c = .ok (st2, fs2) o) : fs2 = fs := by
  rw [transfer_one_okRead_dup hr hd] at h
  cases hm : mark_transferred_from_source st c.path (digest c.contents)
      c.last_modified c.size <;> rw [hm] at h
  · simp at h
  · simp only [RunResult.ok.injEq, Prod.mk.injEq] at h
    exact h.1.2.symm

/-! ### Single atomic steps of an interleaved worker -/

theorem workerStep_toRead_okRead {st : StoreState} {fs : Fs} {c : Candidate}
    (hr : c.readOutcome = .okRead) :
    workerStep st fs ⟨c, .toRead⟩ = .ok (st, fs) ⟨c, .toCheck⟩ := by
  simp [workerStep, hr]

theorem workerStep_toCheck_present {st : StoreState} {fs : Fs} {c : Candidate}
    (hd : exists_in_target st (digest c.contents) = true) :
    workerStep st fs ⟨c, .toCheck⟩ = .ok (st, fs) ⟨c, .toMark⟩ := by
  simp [workerStep, hd]

theorem workerStep_toCheck_absent {st : StoreState} {fs : Fs} {c : Candidate}
    (hd : exists_in_target st (digest c.contents) = false) :
    workerStep st fs ⟨c, .toCheck⟩ = .ok (st, fs) ⟨c, .toPublish⟩ := by
  simp [workerStep, hd]

theorem workerStep_toPublish_ok {st : StoreState} {fs : Fs} {c : Candidate}
    (hp : fsHasPath fs c.path = false) :
    workerStep st fs ⟨c, .toPublish⟩ =
      .ok (st, ⟨fs.files ++ [(c.path, c.contents)]⟩) ⟨c, .toMark⟩ := by
  simp [workerStep, persist_noclobber_ok_intro hp]

theorem workerStep_toMark_ok {st : StoreState} {fs : Fs} {c : Candidate}
    (hp : hasPath st.source_files c.path = false) (ht : 0 ≤ c.last_modified) :
    workerStep st fs ⟨c, .toMark⟩ =
      .ok ({ st with
             source_files := st.source_files ++
               [(c.path, ⟨c.last_modified / 1000000000, u64_as_i64 c.size,
                 digest c.contents⟩)] }, fs) ⟨c, .done .Success⟩ := by
  simp [workerStep, mark_transferred_ok_intro hp ht]

theorem workerStep_done {st : StoreState} {fs : Fs} {c : Candidate} {o : FileOutcome} :
    workerStep st fs ⟨c, .done o⟩ = .ok (st, fs) ⟨c, .done o⟩ :=
  rfl

theorem transfer_new_files_cons_ok {st : StoreState} {fs : Fs} {c : Candidate}
    {cs : List Candidate} {s : StoreState × Fs} {os : List FileOutcome}
    (h : transfer_new_files st fs (c :: cs) = .ok s os) :
    ∃ st2 fs2 o os2, transfer_one st fs c = .ok (st2, fs2) o ∧
      transfer_new_files st2 fs2 cs = .ok s os2 ∧ os = o :: os2 := by
  rw [transfer_new_files] at h
  split at h
  · simp at h
  · rename_i st2 fs2 o h1
    split at h
    · simp at h
    · rename_i s2 os2 h2
      simp only [RunResult.ok.injEq] at h
      refine ⟨st2, fs2, o, os2, h1, ?_, h.2.symm⟩
      rw [← h.1]
      exact h2

theorem transfer_new_files_append_ok {st : StoreState} {fs : Fs}
    {xs ys : List Candidate} {s : StoreState × Fs} {os : List FileOutcome}
    (h : transfer_new_files st fs (xs ++ ys) = .ok s os) :
    ∃ stM fsM os1 os2, transfer_new_files st fs xs = .ok (stM, fsM) os1 ∧
      transfer_new_files stM fsM ys = .ok s os2 ∧ os = os1 ++ os2 := by
  induction xs generalizing st fs os with
  | nil => exact ⟨st, fs, [], os, rfl, h, rfl⟩
  | cons c xs ih =>
    rw [List.cons_append] at h
    obtain ⟨st2, fs2, o, os2, h1, h2, rfl⟩ := transfer_new_files_cons_ok h
    obtain ⟨stM, fsM, osa, osb, ha, hb, rfl⟩ := ih h2
    refine ⟨stM, fsM, o :: osa, osb, ?_, hb, rfl⟩
    simp [transfer_new_files, h1, ha]

theorem transfer_new_files_ok_length {st : StoreState} {fs : Fs}
    {cs : List Candidate} {s : StoreState × Fs} {os : List FileOutcome}
    (h : transfer_new_files st fs cs = .ok s os) : os.length = cs.length := by
  induction cs generalizing st fs os with
  | nil =>
    rw [transfer_new_files] at h
    simp only [RunResult.ok.injEq] at h
    simp [← h.2]
  | cons c cs ih =>
    obtain ⟨st2, fs2, o, os2, -, h2, rfl⟩ := transfer_new_files_cons_ok h
    simp [ih h2]

theorem transfer_new_files_src_mono {st : StoreState} {fs : Fs} {cs : List Candidate}
    {stF : StoreState} {fsF : Fs} {os : List FileOutcome}
    (h : transfer_new_files st fs cs = .ok (stF, fsF) os) {q : String}
    (hq : hasPath st.source_files q = true) : hasPath stF.source_files q = true := by
  induction cs generalizing st fs os with
  | nil =>
    rw [transfer_new_files] at h
    simp only [RunResult.ok.injEq, Prod.mk.injEq] at h
    exact h.1.1 ▸ hq
  | cons c cs ih =>
    obtain ⟨st2, fs2, o, os2, h1, h2, rfl⟩ := transfer_new_files_cons_ok h
    exact ih h2 (transfer_one_ok_src_mono h1 hq)

theorem transfer_new_files_digest_mono {st : StoreState} {fs : Fs} {cs : List Candidate}
    {stF : StoreState} {fsF : Fs} {os : List FileOutcome}
    (h : transfer_new_files st fs cs = .ok (stF, fsF) os) {d : List Nat}
    (hd : exists_in_target st d = true) : exists_in_target stF d = true := by
  induction cs generalizing st fs os with
  | nil =>
    rw [transfer_new_files] at h
    simp only [RunResult.ok.injEq, Prod.mk.injEq] at h
    exact h.1.1 ▸ hd
  | cons c cs ih =>
    obtain ⟨st2, fs2, o, os2, h1, h2, rfl⟩ := transfer_new_files_cons_ok h
    exact ih h2 (transfer_one_ok_digest_mono h1 hd)

theorem transfer_new_files_src_sub {st : StoreState} {fs : Fs} {cs : List Candidate}
    {stF : StoreState} {fsF : Fs} {os : List FileOutcome}
    (h : transfer_new_files st fs cs = .ok (stF, fsF) os) {q : String}
    (hq : hasPath stF.source_files q = true) :
    hasPath st.source_files q = true ∨
      ∃ c ∈ cs, c.path = q ∧ c.readOutcome = .okRead := by
  induction cs generalizing st fs os with
  | nil =>
    rw [transfer_new_files] at h
    simp only [RunResult.ok.injEq, Prod.mk.injEq] at h
    exact Or.inl (h.1.1 ▸ hq)
  | cons c cs ih =>
    obtain ⟨st2, fs2, o, os2, h1, h2, rfl⟩ := transfer_new_files_cons_ok h
    rcases ih h2 with h3 | ⟨c', hc', h3⟩
    · rcases transfer_one_ok_src_sub h1 h3 with h4 | ⟨h4, h5⟩
      · exact Or.inl h4
      · exact Or.inr ⟨c, List.mem_cons_self .., h4.symm, h5⟩
    · exact Or.inr ⟨c', List.mem_cons_of_mem _ hc', h3⟩

theorem transfer_new_files_fs_sub {st : StoreState} {fs : Fs} {cs : List Candidate}
    {stF : StoreState} {fsF : Fs} {os : List FileOutcome}
    (h : transfer_new_files st fs cs = .ok (stF, fsF) os) {q : String}
    (hq : fsHasPath fsF q = true) :
    fsHasPath fs q = true ∨ ∃ c ∈ cs, c.path = q := by
  induction cs generalizing st fs os with
  | nil =>
    rw [transfer_new_files] at h
    simp only [RunResult.ok.injEq, Prod.mk.injEq] at h
    exact Or.inl (h.1.2 ▸ hq)
  | cons c cs ih =>
    obtain ⟨st2, fs2, o, os2, h1, h2, rfl⟩ := transfer_new_files_cons_ok h
    rcases ih h2 with h3 | ⟨c', hc', h3⟩
    · rcases transfer_one_ok_fs_sub h1 h3 with h4 | h4
      · exact Or.inl h4
      · exact Or.inr ⟨c, List.mem_cons_self .., h4.symm⟩
    · exact Or.inr ⟨c', List.mem_cons_of_mem _ hc', h3⟩

/-- The write loop pushes every byte into the wrapped writer and absorbs the
same bytes into the hash state, whenever the destination keeps accepting a
positive number of bytes per call. -/
theorem write_all_spec (accepts : List Nat → Nat)
    (hpos : ∀ buf : List Nat, buf ≠ [] → 0 < accepts buf)
    (hle : ∀ buf : List Nat, accepts buf ≤ buf.length) :
    ∀ (fuel : Nat) (bytes : List Nat) (d : DigestWriter), bytes.length ≤ fuel →
      write_all accepts fuel d bytes = some ⟨d.inner ++ bytes, d.sha256 ++ bytes⟩ := by
  intro fuel
  induction fuel with
  | zero =>
    intro bytes d hlen
    have hb : bytes = [] := List.length_eq_zero.mp (Nat.le_zero.mp hlen)
    subst hb
    simp [write_all]
  | succ fuel ih =>
    intro bytes d hlen
    cases bytes with
    | nil => simp [write_all]
    | cons b bs =>
      have hk : 0 < accepts (b :: bs) := hpos _ (by simp)
      have hk0 : ¬(accepts (b :: bs) = 0) := Nat.pos_iff_ne_zero.mp hk
      have hlen2 : ((b :: bs).drop (accepts (b :: bs))).length ≤ fuel := by
        rw [List.length_drop]
        have h1 := hle (b :: bs)
        have h2 : (b :: bs).length ≤ fuel + 1 := hlen
        omega
      simp only [write_all, if_neg hk0]
      rw [ih _ _ hlen2]
      simp [DigestWriter.write, hk, List.append_assoc, List.take_append_drop]

/-! ## Claim theorems -/

/-- Claim C9: for every byte sequence, the digest computed by consuming the
bytes directly (`digest`) equals the digest obtained by wrapping a
destination writer, writing the same bytes through the wrapper, and
finalising — the two modes of the Digest Engine agree on all inputs
(for any partial-accepting destination that keeps making progress). -/
theorem digest_engine_round_trip (bytes w0 : List Nat) (accepts : List Nat → Nat)
    (fuel : Nat) (hpos : ∀ buf : List Nat, buf ≠ [] → 0 < accepts buf)
    (hle : ∀ buf : List Nat, accepts buf ≤ buf.length) (hfuel : bytes.length ≤ fuel) :
    write_all accepts fuel (DigestWriter.new w0) bytes = some ⟨w0 ++ bytes, bytes⟩ ∧
      DigestWriter.finalise ⟨w0 ++ bytes, bytes⟩ = digest bytes := by
  refine ⟨?_, rfl⟩
  have h := write_all_spec accepts hpos hle fuel bytes (DigestWriter.new w0) hfuel
  simpa [DigestWriter.new] using h

/-- Witness for C9 at the concrete byte sequence `[1, 2, 3]` written through
a destination that accepts every byte. -/
theorem digest_engine_round_trip_witness :
    write_all (fun l => l.length) 3 (DigestWriter.new []) [1, 2, 3] =
        some ⟨[] ++ [1, 2, 3], [1, 2, 3]⟩ ∧
      DigestWriter.finalise ⟨[] ++ [1, 2, 3], [1, 2, 3]⟩ = digest [1, 2, 3] :=
  digest_engine_round_trip [1, 2, 3] [] (fun l => l.length) 3
    (fun _ h => List.length_pos.mpr h) (fun _ => le_refl _) (by decide)

/-- Claim C10: every Metadata Store lookup or record operation that takes a
modification time returns an error when the supplied time is before the
UNIX epoch; the record operations error out before touching the store, so
nothing is written. -/
theorem store_rejects_pre_epoch (st : StoreState) (p : String) (t : Int) (s : Nat)
    (d : List Nat) (ht : t < 0) :
    exists_in_old_target st p t s = .error "system time before UNIX_EPOCH" ∧
    mark_exists_in_old_target st p t s d = .error "system time before UNIX_EPOCH" ∧
    was_transferred_from_source st p t s = .error "system time before UNIX_EPOCH" ∧
    mark_transferred_from_source st p d t s = .error "system time before UNIX_EPOCH" := by
  unfold exists_in_old_target mark_exists_in_old_target was_transferred_from_source
    mark_transferred_from_source system_time_as_i64
  rw [if_pos ht]
  exact ⟨rfl, rfl, rfl, rfl⟩

/-- Witness for C10 at the concrete pre-epoch time `-1` ns. -/
theorem store_rejects_pre_epoch_witness :
    ((-1 : Int) < 0) ∧
      (exists_in_old_target ⟨[], []⟩ "p" (-1) 1 = .error "system time before UNIX_EPOCH" ∧
       mark_exists_in_old_target ⟨[], []⟩ "p" (-1) 1 [0] =
         .error "system time before UNIX_EPOCH" ∧
       was_transferred_from_source ⟨[], []⟩ "p" (-1) 1 =
         .error "system time before UNIX_EPOCH" ∧
       mark_transferred_from_source ⟨[], []⟩ "p" [0] (-1) 1 =
         .error "system time before UNIX_EPOCH") :=
  ⟨by decide, store_rejects_pre_epoch ⟨[], []⟩ "p" (-1) 1 [0] (by decide)⟩

/-- Claim C5: the transfer lookup returns `New` when no record exists for
the path, `Transferred` exactly when the stored (second-truncated)
modification time and size equal the queried ones, and otherwise
`NewMetadata` carrying the previously stored modification time and size;
the time comparison is on values truncated to whole seconds. -/
theorem transfer_lookup_tri_state (st st' : StoreState) (p : String) (d : List Nat)
    (t1 t2 : Int) (s s2 : Nat) (ht2 : 0 ≤ t2)
    (hmark : mark_transferred_from_source st p d t1 s = .ok st') :
    was_transferred_from_source st p t2 s2 = .ok .New ∧
    was_transferred_from_source st' p t2 s2 =
      .ok (if t1 / 1000000000 = t2 / 1000000000 ∧ u64_as_i64 s = u64_as_i64 s2
           then .Transferred
           else .NewMetadata (i64_as_system_time (t1 / 1000000000))
             (i64_as_u64 (u64_as_i64 s))) := by
  obtain ⟨ht1, hp, hst⟩ := mark_transferred_ok_elim hmark
  refine ⟨was_transferred_of_hasPath_false hp ht2, ?_⟩
  subst hst
  unfold was_transferred_from_source
  rw [system_time_as_i64_ok ht2]
  rw [show ({ st with
      source_files :=
        st.source_files ++ [(p, ⟨t1 / 1000000000, u64_as_i64 s, d⟩)] } :
        StoreState).source_files =
      st.source_files ++ [(p, ⟨t1 / 1000000000, u64_as_i64 s, d⟩)] from rfl]
  rw [lookupRecord_append_self _ hp]
  by_cases hc : t1 / 1000000000 = t2 / 1000000000 ∧ u64_as_i64 s = u64_as_i64 s2
  · rw [if_pos hc]
    simp [hc.1, hc.2]
  · rw [if_neg hc]
    simp [hc]

/-- Witness for C5: a record written at 5.3 s is reported `Transferred` for
a query at 5.9 s — equality is on whole seconds, not sub-second values. -/
theorem transfer_lookup_tri_state_witness :
    (0 : Int) ≤ 5900000000 ∧
      (was_transferred_from_source ⟨[], []⟩ "p" 5900000000 10 = .ok .New ∧
       was_transferred_from_source ⟨[], [("p", ⟨5, 10, [1]⟩)]⟩ "p" 5900000000 10 =
         .ok (if (5300000000 : Int) / 1000000000 = 5900000000 / 1000000000 ∧
                u64_as_i64 10 = u64_as_i64 10
              then .Transferred
              else .NewMetadata (i64_as_system_time (5300000000 / 1000000000))
                (i64_as_u64 (u64_as_i64 10)))) :=
  ⟨by decide, transfer_lookup_tri_state ⟨[], []⟩ ⟨[], [("p", ⟨5, 10, [1]⟩)]⟩ "p" [1]
    5300000000 5900000000 10 10 (by decide) (by decide)⟩

/-- Claim C3 (evaluation of the code): `exists_in_old_target` as implemented
returns a boolean exact-match existence result, conflating "no record for
the path" with "record with changed metadata" and carrying no previous
metadata or digest — contradicting the claimed tri-state result. -/
theorem legacy_lookup_in_code_is_boolean :
    exists_in_old_target ⟨[("p", ⟨5, 10, [1]⟩)], []⟩ "p" (7 * 1000000000) 10 = .ok false ∧
    exists_in_old_target ⟨[("p", ⟨5, 10, [1]⟩)], []⟩ "q" (5 * 1000000000) 10 = .ok false ∧
    exists_in_old_target ⟨[("p", ⟨5, 10, [1]⟩)], []⟩ "p" (5 * 1000000000) 10 = .ok true := by
  decide

/-- Claim C4 (evaluation of the code): both record operations are plain
`INSERT`s — re-recording an existing path fails with a primary-key
constraint error instead of replacing the record. -/
theorem mark_operations_fail_on_existing_path :
    mark_exists_in_old_target ⟨[], []⟩ "p" 0 1 [42] = .ok ⟨[("p", ⟨0, 1, [42]⟩)], []⟩ ∧
    mark_exists_in_old_target ⟨[("p", ⟨0, 1, [42]⟩)], []⟩ "p" (5 * 1000000000) 1 [42] =
      .error "UNIQUE constraint failed: old_target_files.path" ∧
    mark_transferred_from_source ⟨[], []⟩ "p" [42] 0 1 = .ok ⟨[], [("p", ⟨0, 1, [42]⟩)]⟩ ∧
    mark_transferred_from_source ⟨[], [("p", ⟨0, 1, [42]⟩)]⟩ "p" [42] (5 * 1000000000) 1 =
      .error "UNIQUE constraint failed: source_files.path" := by
  decide

/-- Claim C2 (evaluation of the code): on a legacy path whose metadata
changed but whose bytes (hence digest) are unchanged, the phase-1 stale
branch aborts the run with a constraint error instead of refreshing the
record and continuing, because the re-record is a plain `INSERT` on an
existing primary key; the digest-mismatch half does abort with an error
naming the path. -/
theorem phase1_stale_refresh_aborts :
    ensure_old_out_dir_properly_indexed_step ⟨[("c.jpg", ⟨5, 10, sha256Hash [1, 2, 3]⟩)], []⟩
        "c.jpg" [1, 2, 3] (7 * 1000000000) 10 =
      .fatal ⟨[("c.jpg", ⟨5, 10, sha256Hash [1, 2, 3]⟩)], []⟩
        "UNIQUE constraint failed: old_target_files.path" ∧
    ensure_old_out_dir_properly_indexed_step ⟨[("c.jpg", ⟨5, 10, sha256Hash [1, 2, 3]⟩)], []⟩
        "c.jpg" [9] (7 * 1000000000) 10 =
      .fatal ⟨[("c.jpg", ⟨5, 10, sha256Hash [1, 2, 3]⟩)], []⟩
        "unexpected rewrite of file c.jpg, digest changed" := by
  decide

/-- Claim C8: a candidate that reaches the publish step (digest check came
back false) and whose destination path is already occupied fails loudly:
the run aborts with an error naming the path, and both the store and the
destination tree are left exactly as they were — nothing is overwritten. -/
theorem publish_fails_on_existing_destination (st : StoreState) (fs : Fs) (c : Candidate)
    (hread : c.readOutcome = .okRead)
    (hdup : exists_in_target st (digest c.contents) = false)
    (hocc : fsHasPath fs c.path = true) :
    transfer_one st fs c = .fatal (st, fs) ("file already exists: " ++ c.path) :=
  transfer_one_okRead_clobber hread hdup hocc

/-- Witness for C8: publishing `"a"` over an occupied destination. -/
theorem publish_fails_on_existing_destination_witness :
    (Candidate.mk "a" [1] .okRead 0 1).readOutcome = .okRead ∧
    exists_in_target ⟨[], []⟩ (digest (Candidate.mk "a" [1] .okRead 0 1).contents) = false ∧
    fsHasPath ⟨[("a", [7])]⟩ (Candidate.mk "a" [1] .okRead 0 1).path = true ∧
    transfer_one ⟨[], []⟩ ⟨[("a", [7])]⟩ ⟨"a", [1], .okRead, 0, 1⟩ =
      .fatal (⟨[], []⟩, ⟨[("a", [7])]⟩)
        ("file already exists: " ++ (Candidate.mk "a" [1] .okRead 0 1).path) :=
  ⟨rfl, by decide, by decide,
    publish_fails_on_existing_destination ⟨[], []⟩ ⟨[("a", [7])]⟩ ⟨"a", [1], .okRead, 0, 1⟩
      rfl (by decide) (by decide)⟩

/-- Counterexample to claim C6 as stated: a candidate whose bytes were fully
copied into staging but whose publish fails (destination path occupied) gets
*no* transfer record — the run aborts with the store still empty, so the
record operation is not called "regardless of the outcome of the publish
step". -/
theorem transfer_record_skipped_on_publish_failure :
    transfer_new_files ⟨[], []⟩ ⟨[("a", [7])]⟩ [⟨"a", [1], .okRead, 0, 1⟩] =
      .fatal (⟨[], []⟩, ⟨[("a", [7])]⟩) ("file already exists: " ++ "a") ∧
    hasPath (⟨[], []⟩ : StoreState).source_files "a" = false := by
  decide

/-- Claim C6 as amended: for every candidate whose source was opened and
fully copied, the transfer-record operation is called with the path, digest,
source modification time and source size whenever the duplicate check
returns true (staged copy discarded) or the publish succeeds; a publish
failure, however, is fatal — the error propagates, and no transfer record
is written for that path. -/
theorem transfer_record_called_cases (st : StoreState) (fs : Fs) (c : Candidate)
    (hread : c.readOutcome = .okRead) :
    (exists_in_target st (digest c.contents) = true →
      transfer_one st fs c =
        match mark_transferred_from_source st c.path (digest c.contents)
            c.last_modified c.size with
        | .error e => .fatal (st, fs) e
        | .ok st2 => .ok (st2, fs) .Success) ∧
    (exists_in_target st (digest c.contents) = false → fsHasPath fs c.path = false →
      transfer_one st fs c =
        match mark_transferred_from_source st c.path (digest c.contents)
            c.last_modified c.size with
        | .error e => .fatal (st, ⟨fs.files ++ [(c.path, c.contents)]⟩) e
        | .ok st2 => .ok (st2, ⟨fs.files ++ [(c.path, c.contents)]⟩) .Success) ∧
    (exists_in_target st (digest c.contents) = false → fsHasPath fs c.path = true →
      transfer_one st fs c = .fatal (st, fs) ("file already exists: " ++ c.path)) :=
  ⟨fun hd => transfer_one_okRead_dup hread hd,
   fun hd hp => transfer_one_okRead_publish hread hd hp,
   fun hd hp => transfer_one_okRead_clobber hread hd hp⟩

/-- Witness for the amended C6 at a concrete candidate. -/
theorem transfer_record_called_cases_witness :
    (Candidate.mk "a" [1] .okRead 0 1).readOutcome = .okRead ∧
    ((exists_in_target ⟨[], []⟩ (digest (Candidate.mk "a" [1] .okRead 0 1).contents) = true →
       transfer_one ⟨[], []⟩ ⟨[]⟩ ⟨"a", [1], .okRead, 0, 1⟩ =
         match mark_transferred_from_source ⟨[], []⟩
             (Candidate.mk "a" [1] .okRead 0 1).path
             (digest (Candidate.mk "a" [1] .okRead 0 1).contents)
             (Candidate.mk "a" [1] .okRead 0 1).last_modified
             (Candidate.mk "a" [1] .okRead 0 1).size with
         | .error e => .fatal (⟨[], []⟩, ⟨[]⟩) e
         | .ok st2 => .ok (st2, ⟨[]⟩) .Success) ∧
     (exists_in_target ⟨[], []⟩ (digest (Candidate.mk "a" [1] .okRead 0 1).contents) = false →
       fsHasPath ⟨[]⟩ (Candidate.mk "a" [1] .okRead 0 1).path = false →
       transfer_one ⟨[], []⟩ ⟨[]⟩ ⟨"a", [1], .okRead, 0, 1⟩ =
         match mark_transferred_from_source ⟨[], []⟩
             (Candidate.mk "a" [1] .okRead 0 1).path
             (digest (Candidate.mk "a" [1] .okRead 0 1).contents)
             (Candidate.mk "a" [1] .okRead 0 1).last_modified
             (Candidate.mk "a" [1] .okRead 0 1).size with
         | .error e =>
           .fatal (⟨[], []⟩,
             ⟨(Fs.mk []).files ++
               [((Candidate.mk "a" [1] .okRead 0 1).path,
                 (Candidate.mk "a" [1] .okRead 0 1).contents)]⟩) e
         | .ok st2 =>
           .ok (st2,
             ⟨(Fs.mk []).files ++
               [((Candidate.mk "a" [1] .okRead 0 1).path,
                 (Candidate.mk "a" [1] .okRead 0 1).contents)]⟩) .Success) ∧
     (exists_in_target ⟨[], []⟩ (digest (Candidate.mk "a" [1] .okRead 0 1).contents) = false →
       fsHasPath ⟨[]⟩ (Candidate.mk "a" [1] .okRead 0 1).path = true →
       transfer_one ⟨[], []⟩ ⟨[]⟩ ⟨"a", [1], .okRead, 0, 1⟩ =
         .fatal (⟨[], []⟩, ⟨[]⟩)
           ("file already exists: " ++ (Candidate.mk "a" [1] .okRead 0 1).path))) :=
  ⟨rfl, transfer_record_called_cases ⟨[], []⟩ ⟨[]⟩ ⟨"a", [1], .okRead, 0, 1⟩ rfl⟩

/-- Claim C7: in phase 3 a failure to open or to fully copy a source file is
never fatal: the run still processes every candidate (one outcome each),
the failure is recorded as `FailedToOpen`/`FailedToCopy` for the path, no
transfer record is written for it, and a later lookup still reports the
path as `New` (eligible for retry). -/
theorem phase3_read_failures_recoverable (st0 : StoreState) (fs0 : Fs)
    (pre post : List Candidate) (c : Candidate) (stF : StoreState) (fsF : Fs)
    (os : List FileOutcome) (t : Int) (s : Nat)
    (hfail : c.readOutcome = .openFails ∨ c.readOutcome = .copyFails)
    (hrun : transfer_new_files st0 fs0 (pre ++ c :: post) = .ok (stF, fsF) os)
    (hfresh : hasPath st0.source_files c.path = false)
    (hunique : ∀ c' ∈ pre ++ post, c'.path ≠ c.path)
    (ht : 0 ≤ t) :
    os.length = (pre ++ c :: post).length ∧
    ((FileOutcome.FailedToOpen c.path) ∈ os ∨ (FileOutcome.FailedToCopy c.path) ∈ os) ∧
    hasPath stF.source_files c.path = false ∧
    was_transferred_from_source stF c.path t s = .ok .New := by
  have hlen := transfer_new_files_ok_length hrun
  have hno : hasPath stF.source_files c.path = false := by
    cases hF : hasPath stF.source_files c.path
    · rfl
    · exfalso
      rcases transfer_new_files_src_sub hrun hF with h | ⟨c', hc', hpath, hok⟩
      · rw [hfresh] at h
        cases h
      · rcases List.mem_append.mp hc' with hm | hm
        · exact hunique c' (List.mem_append_left _ hm) hpath
        · rcases List.mem_cons.mp hm with rfl | hm
          · rcases hfail with hf | hf <;> rw [hok] at hf <;> cases hf
          · exact hunique c' (List.mem_append_right _ hm) hpath
  obtain ⟨stA, fsA, os1, osr, hpre, hrest, rfl⟩ := transfer_new_files_append_ok hrun
  obtain ⟨stB, fsB, o, os3, hone, hpost, rfl⟩ := transfer_new_files_cons_ok hrest
  refine ⟨hlen, ?_, hno, was_transferred_of_hasPath_false hno ht⟩
  rcases hfail with hf | hf
  · left
    rw [transfer_one_openFails hf] at hone
    simp only [RunResult.ok.injEq] at hone
    have ho : o = .FailedToOpen c.path := hone.2.symm
    simp [ho]
  · right
    rw [transfer_one_copyFails hf] at hone
    simp only [RunResult.ok.injEq] at hone
    have ho : o = .FailedToCopy c.path := hone.2.symm
    simp [ho]

/-- Witness for C7: a two-candidate run where the first open fails and the
second candidate is still transferred; the failed path stays `New`. -/
theorem phase3_read_failures_recoverable_witness :
    transfer_new_files ⟨[], []⟩ ⟨[]⟩
        ([] ++ ⟨"a", [0], .openFails, 0, 1⟩ :: [⟨"b", [0], .okRead, 0, 1⟩]) =
      .ok (⟨[], [("b", ⟨0, 1, sha256Hash [0]⟩)]⟩, ⟨[("b", [0])]⟩)
        [.FailedToOpen "a", .Success] ∧
    ([.FailedToOpen "a", .Success] : List FileOutcome).length =
      ([] ++ ⟨"a", [0], .openFails, 0, 1⟩ :: [⟨"b", [0], .okRead, 0, 1⟩] :
        List Candidate).length ∧
    ((FileOutcome.FailedToOpen (Candidate.mk "a" [0] .openFails 0 1).path) ∈
        ([.FailedToOpen "a", .Success] : List FileOutcome) ∨
      (FileOutcome.FailedToCopy (Candidate.mk "a" [0] .openFails 0 1).path) ∈
        ([.FailedToOpen "a", .Success] : List FileOutcome)) ∧
    hasPath (StoreState.mk [] [("b", ⟨0, 1, sha256Hash [0]⟩)]).source_files
      (Candidate.mk "a" [0] .openFails 0 1).path = false ∧
    was_transferred_from_source ⟨[], [("b", ⟨0, 1, sha256Hash [0]⟩)]⟩
      (Candidate.mk "a" [0] .openFails 0 1).path 0 1 = .ok .New :=
  ⟨by decide,
    phase3_read_failures_recoverable ⟨[], []⟩ ⟨[]⟩ [] [⟨"b", [0], .okRead, 0, 1⟩]
      ⟨"a", [0], .openFails, 0, 1⟩ ⟨[], [("b", ⟨0, 1, sha256Hash [0]⟩)]⟩ ⟨[("b", [0])]⟩
      [.FailedToOpen "a", .Success] 0 1 (Or.inl rfl) (by decide) (by decide) (by decide)
      (by decide)⟩

/-- Counterexample to claim C1 as stated: under the concurrent phase-3
execution that src/main.rs actually runs (rayon `into_par_iter`, with the
digest check, publish and record as separate atomic store/filesystem calls),
the alternating schedule lets two candidates with identical content both
observe the digest as absent and both publish — two physical copies reach
the destination, even though both paths are duly recorded. -/
theorem dedup_race_publishes_twice :
    runSchedule ⟨[], []⟩ ⟨[]⟩ ⟨⟨"a", [0], .okRead, 0, 1⟩, .toRead⟩
        ⟨⟨"b", [0], .okRead, 0, 1⟩, .toRead⟩
        [false, true, false, true, false, true, false, true] =
      .ok (⟨[], [("a", ⟨0, 1, sha256Hash [0]⟩), ("b", ⟨0, 1, sha256Hash [0]⟩)]⟩,
          ⟨[("a", [0]), ("b", [0])]⟩)
        (⟨⟨"a", [0], .okRead, 0, 1⟩, .done .Success⟩,
         ⟨⟨"b", [0], .okRead, 0, 1⟩, .done .Success⟩) ∧
    fsHasPath ⟨[("a", [0]), ("b", [0])]⟩ "a" = true ∧
    fsHasPath ⟨[("a", [0]), ("b", [0])]⟩ "b" = true := by
  decide

/-- Claim C1 as amended: for two phase-3 candidates with identical byte
content and different paths, when the two workers' check–publish–record
sequences do not interleave (the first candidate's atomic steps all complete
before the second candidate's digest check, as under serial scheduling), the
run completes with both paths recorded in the transfer ledger and at most
one physical copy published — the second candidate's staged copy is
discarded because the digest-existence query over the union of both corpora
returns true, so its destination path is never created.  Interleaved
schedules can publish both copies (see the counterexample), since the store
provides no cross-call transaction. -/
theorem dedup_correctness_serial (st0 : StoreState) (fs0 : Fs) (c1 c2 : Candidate)
    (hr1 : c1.readOutcome = .okRead) (hr2 : c2.readOutcome = .okRead)
    (hcont : c1.contents = c2.contents) (hne : c1.path ≠ c2.path)
    (hm1 : 0 ≤ c1.last_modified) (hm2 : 0 ≤ c2.last_modified)
    (hs1 : hasPath st0.source_files c1.path = false)
    (hs2 : hasPath st0.source_files c2.path = false)
    (hf1 : fsHasPath fs0 c1.path = false)
    (hf2 : fsHasPath fs0 c2.path = false) :
    ∃ stF fsF wsF,
      runSchedule st0 fs0 ⟨c1, .toRead⟩ ⟨c2, .toRead⟩
          [false, false, false, false, true, true, true, true] = .ok (stF, fsF) wsF ∧
      hasPath stF.source_files c1.path = true ∧
      hasPath stF.source_files c2.path = true ∧
      fsHasPath fsF c2.path = false := by
  have hbne : (c1.path == c2.path) = false := beq_eq_false_iff_ne.mpr hne
  have hd2 : exists_in_target
      { st0 with
        source_files := st0.source_files ++
          [(c1.path, ⟨c1.last_modified / 1000000000, u64_as_i64 c1.size,
            digest c1.contents⟩)] }
      (digest c2.contents) = true := by
    simp [exists_in_target, List.any_append, hcont]
  have hs2' : hasPath
      ({ st0 with
         source_files := st0.source_files ++
           [(c1.path, ⟨c1.last_modified / 1000000000, u64_as_i64 c1.size,
             digest c1.contents⟩)] } : StoreState).source_files c2.path = false := by
    simp [hasPath_append, hs2, hbne]
  cases hd : exists_in_target st0 (digest c1.contents)
  case false =>
    have hrun : runSchedule st0 fs0 ⟨c1, .toRead⟩ ⟨c2, .toRead⟩
        [false, false, false, false, true, true, true, true] =
      .ok (⟨st0.old_target_files,
            (st0.source_files ++
              [(c1.path, ⟨c1.last_modified / 1000000000, u64_as_i64 c1.size,
                digest c1.contents⟩)]) ++
              [(c2.path, ⟨c2.last_modified / 1000000000, u64_as_i64 c2.size,
                digest c2.contents⟩)]⟩,
          ⟨fs0.files ++ [(c1.path, c1.contents)]⟩)
        (⟨c1, .done .Success⟩, ⟨c2, .done .Success⟩) := by
      simp only [runSchedule, workerStep_toRead_okRead hr1, workerStep_toRead_okRead hr2,
        workerStep_toCheck_absent hd, workerStep_toPublish_ok hf1,
        workerStep_toMark_ok hs1 hm1, workerStep_toCheck_present hd2,
        workerStep_toMark_ok hs2' hm2, workerStep_done]
    refine ⟨_, _, _, hrun, ?_, ?_, ?_⟩
    · simp [hasPath, List.any_append]
    · simp [hasPath, List.any_append]
    · rw [fsHasPath_append]
      have hf2' : fsHasPath ⟨fs0.files⟩ c2.path = false := hf2
      rw [hf2', hbne]
      rfl
  case true =>
    have hrun : runSchedule st0 fs0 ⟨c1, .toRead⟩ ⟨c2, .toRead⟩
        [false, false, false, false, true, true, true, true] =
      .ok (⟨st0.old_target_files,
            (st0.source_files ++
              [(c1.path, ⟨c1.last_modified / 1000000000, u64_as_i64 c1.size,
                digest c1.contents⟩)]) ++
              [(c2.path, ⟨c2.last_modified / 1000000000, u64_as_i64 c2.size,
                digest c2.contents⟩)]⟩,
          fs0)
        (⟨c1, .done .Success⟩, ⟨c2, .done .Success⟩) := by
      simp only [runSchedule, workerStep_toRead_okRead hr1, workerStep_toRead_okRead hr2,
        workerStep_toCheck_present hd, workerStep_toMark_ok hs1 hm1,
        workerStep_toCheck_present hd2, workerStep_toMark_ok hs2' hm2, workerStep_done]
    refine ⟨_, _, _, hrun, ?_, ?_, ?_⟩
    · simp [hasPath, List.any_append]
    · simp [hasPath, List.any_append]
    · exact hf2

/-- Witness for the amended C1: candidates `"a"` and `"b"` with the same
single-byte content, run serially from empty state — only `"a"` is
published, both are recorded. -/
theorem dedup_correctness_serial_witness :
    (Candidate.mk "a" [0] .okRead 0 1).contents =
      (Candidate.mk "b" [0] .okRead 0 1).contents ∧
    (∃ stF fsF wsF,
      runSchedule ⟨[], []⟩ ⟨[]⟩ ⟨⟨"a", [0], .okRead, 0, 1⟩, .toRead⟩
          ⟨⟨"b", [0], .okRead, 0, 1⟩, .toRead⟩
          [false, false, false, false, true, true, true, true] = .ok (stF, fsF) wsF ∧
      hasPath stF.source_files (Candidate.mk "a" [0] .okRead 0 1).path = true ∧
      hasPath stF.source_files (Candidate.mk "b" [0] .okRead 0 1).path = true ∧
      fsHasPath fsF (Candidate.mk "b" [0] .okRead 0 1).path = false) :=
  ⟨rfl,
    dedup_correctness_serial ⟨[], []⟩ ⟨[]⟩ ⟨"a", [0], .okRead, 0, 1⟩
      ⟨"b", [0], .okRead, 0, 1⟩ rfl rfl rfl (by decide) (by decide) (by decide)
      (by decide) (by decide) (by decide) (by decide)⟩

end PhotoSync
